import Mathlib

/-!
Verification of the `s3etag` tool (src/s3etag/__init__.py), a computer of
AWS-S3-style ETags for local files.

The embedding models file content as a `List Nat` of bytes.  `hashlib.md5`
is embedded as a full executable MD5 implementation (RFC 1321) over byte
lists; feeding an accumulator successive `update` calls is modelled as MD5
of the concatenation of the fed byte strings, which is exactly hashlib's
semantics.  The chunked read loop of `calc_s3_etag` is embedded as a
fuel-indexed chunking function (`readChunksAux` / `readChunks`), the fuel
playing the role of the loop's termination measure.

The effectful surface (path-type dispatch, OSError handling, the `main`
loop and its output formatting) is embedded explicitly: a `FileState`
describes what the operating system answers for one file, and results
carry the stdout/stderr lines written and either a returned value or a
raised exception.
-/

/-! ### MD5 (embedding of `hashlib.md5`) -/

/-- 2^32; all MD5 word arithmetic is reduced modulo this. -/
def MOD32 : Nat := 4294967296

/-- 32-bit left rotation (inputs below 2^32). -/
def rotl32 (x s : Nat) : Nat :=
  ((x <<< s) % MOD32) ||| (x >>> (32 - s))

/-- MD5 round function F. -/
def mdF (b c d : Nat) : Nat := (b &&& c) ||| ((b ^^^ 4294967295) &&& d)

/-- MD5 round function G. -/
def mdG (b c d : Nat) : Nat := (b &&& d) ||| (c &&& (d ^^^ 4294967295))

/-- MD5 round function H. -/
def mdH (b c d : Nat) : Nat := b ^^^ c ^^^ d

/-- MD5 round function I. -/
def mdI (b c d : Nat) : Nat := c ^^^ (b ||| (d ^^^ 4294967295))

/-- The 64 MD5 sine-derived constants (RFC 1321 table T). -/
def md5K : List Nat :=
  [0xd76aa478, 0xe8c7b756, 0x242070db, 0xc1bdceee,
   0xf57c0faf, 0x4787c62a, 0xa8304613, 0xfd469501,
   0x698098d8, 0x8b44f7af, 0xffff5bb1, 0x895cd7be,
   0x6b901122, 0xfd987193, 0xa679438e, 0x49b40821,
   0xf61e2562, 0xc040b340, 0x265e5a51, 0xe9b6c7aa,
   0xd62f105d, 0x02441453, 0xd8a1e681, 0xe7d3fbc8,
   0x21e1cde6, 0xc33707d6, 0xf4d50d87, 0x455a14ed,
   0xa9e3e905, 0xfcefa3f8, 0x676f02d9, 0x8d2a4c8a,
   0xfffa3942, 0x8771f681, 0x6d9d6122, 0xfde5380c,
   0xa4beea44, 0x4bdecfa9, 0xf6bb4b60, 0xbebfbc70,
   0x289b7ec6, 0xeaa127fa, 0xd4ef3085, 0x04881d05,
   0xd9d4d039, 0xe6db99e5, 0x1fa27cf8, 0xc4ac5665,
   0xf4292244, 0x432aff97, 0xab9423a7, 0xfc93a039,
   0x655b59c3, 0x8f0ccc92, 0xffeff47d, 0x85845dd1,
   0x6fa87e4f, 0xfe2ce6e0, 0xa3014314, 0x4e0811a1,
   0xf7537e82, 0xbd3af235, 0x2ad7d2bb, 0xeb86d391]

/-- The 64 MD5 per-step rotation amounts. -/
def md5S : List Nat :=
  [7, 12, 17, 22, 7, 12, 17, 22, 7, 12, 17, 22, 7, 12, 17, 22,
   5, 9, 14, 20, 5, 9, 14, 20, 5, 9, 14, 20, 5, 9, 14, 20,
   4, 11, 16, 23, 4, 11, 16, 23, 4, 11, 16, 23, 4, 11, 16, 23,
   6, 10, 15, 21, 6, 10, 15, 21, 6, 10, 15, 21, 6, 10, 15, 21]

/-- One MD5 step, acting on the state `(a, b, c, d)` with the current
block's 16 words `M`, at step index `i` (0 ≤ i < 64). -/
def md5Round (M : List Nat) (st : Nat × Nat × Nat × Nat) (i : Nat) :
    Nat × Nat × Nat × Nat :=
  let (a, b, c, d) := st
  let f :=
    if i < 16 then mdF b c d
    else if i < 32 then mdG b c d
    else if i < 48 then mdH b c d
    else mdI b c d
  let g :=
    if i < 16 then i
    else if i < 32 then (5 * i + 1) % 16
    else if i < 48 then (3 * i + 5) % 16
    else (7 * i) % 16
  let tmp := (a + f + md5K.getD i 0 + M.getD g 0) % MOD32
  let nb := (b + rotl32 tmp (md5S.getD i 0)) % MOD32
  (d, nb, b, c)

/-- Little-endian decoding of a byte list into 32-bit words. -/
def toWords : List Nat → List Nat
  | b0 :: b1 :: b2 :: b3 :: rest =>
      (b0 % 256 + (b1 % 256) * 256 + (b2 % 256) * 65536 + (b3 % 256) * 16777216)
        :: toWords rest
  | _ => []

/-- Process one 64-byte block, returning the updated MD5 state. -/
def md5Block (st : Nat × Nat × Nat × Nat) (block : List Nat) :
    Nat × Nat × Nat × Nat :=
  let M := toWords block
  let (a0, b0, c0, d0) := st
  let (a, b, c, d) := (List.range 64).foldl (md5Round M) st
  ((a0 + a) % MOD32, (b0 + b) % MOD32, (c0 + c) % MOD32, (d0 + d) % MOD32)

/-- The 8 little-endian bytes of the 64-bit value `n` (low 64 bits). -/
def lenBytes (n : Nat) : List Nat :=
  (List.range 8).map (fun i => (n >>> (8 * i)) % 256)

/-- MD5 padding: append `0x80`, zeros up to 56 mod 64, then the 8-byte
little-endian bit length. -/
def md5Pad (msg : List Nat) : List Nat :=
  let L := msg.length
  let r := (L + 1) % 64
  msg ++ [0x80] ++ List.replicate ((120 - r) % 64) 0 ++ lenBytes (8 * L)

/-! ### The chunked read loop

`fh.read(chunksize)` in a loop that stops on an empty read partitions the
remaining content into successive `chunksize`-byte slices; when
`chunksize = 0` the first read already returns the empty byte string and
the loop exits at once.  The fuel argument bounds the number of loop
iterations; `l.length` iterations always suffice (claim C9). -/

/-- The read loop of `calc_s3_etag`, with explicit fuel: each iteration
takes one `chunksize`-byte slice; an empty read (`l = []`, or any read
with `chunksize = 0`) exits the loop. -/
def readChunksAux (cs : Nat) : Nat → List Nat → List (List Nat)
  | 0, _ => []
  | _ + 1, [] => []
  | fuel + 1, a :: l =>
      if cs = 0 then []
      else (a :: l).take cs :: readChunksAux cs fuel ((a :: l).drop cs)

/-- The chunk sequence read by the multipart loop of `calc_s3_etag`. -/
def readChunks (cs : Nat) (l : List Nat) : List (List Nat) :=
  readChunksAux cs l.length l

/-- Little-endian serialization of one 32-bit state word into 4 bytes. -/
def wordLE (w : Nat) : List Nat :=
  [w % 256, (w >>> 8) % 256, (w >>> 16) % 256, (w >>> 24) % 256]

/-- MD5 digest of a byte list, as its 16 raw digest bytes
(`hashlib.md5(msg).digest()`). -/
def md5 (msg : List Nat) : List Nat :=
  let (a, b, c, d) := (readChunks 64 (md5Pad msg)).foldl md5Block
    (0x67452301, 0xefcdab89, 0x98badcfe, 0x10325476)
  wordLE a ++ wordLE b ++ wordLE c ++ wordLE d

/-- The sixteen lowercase hexadecimal digit characters. -/
def hexDigits : List Char := "0123456789abcdef".data

/-- Lowercase hexadecimal digit for `n % 16`. -/
def hexChar (n : Nat) : Char := hexDigits.getD (n % 16) '0'

/-- Two lowercase hex characters of one byte. -/
def byteHex (b : Nat) : List Char := [hexChar (b / 16), hexChar b]

/-- Lowercase hex encoding of a byte list. -/
def hexOfBytes (bs : List Nat) : List Char :=
  bs.foldr (fun b acc => byteHex b ++ acc) []

/-- `hashlib.md5(msg).hexdigest()`: the 32-character lowercase hex digest. -/
def md5hex (msg : List Nat) : String := ⟨hexOfBytes (md5 msg)⟩

/-! ### `calc_s3_etag`: the digest computation on successfully read content

Embeds lines 86-118 of `src/s3etag/__init__.py` for the case where every
read succeeds.  `filesize` is `content.length`.  In the multipart branch,
`count` is the number of loop iterations, `dgst_part` ends as the MD5 of
the last chunk read (or of the empty string if the loop never ran, since
`hashlib.md5()` starts from empty input), and `dgst_whole.hexdigest()` is
the MD5 hex of the concatenation of the raw part digests fed to it. -/

/-- The ETag string `calc_s3_etag` computes for a readable file with the
given content, threshold and chunk size (the source spells the threshold
parameter `threshhold`). -/
def calc_s3_etag (content : List Nat) (threshhold chunksize : Nat) : String :=
  if content.length ≤ threshhold then
    md5hex content
  else
    let chunks := readChunks chunksize content
    let count := chunks.length
    if count > 1 then
      md5hex (chunks.map md5).flatten ++ "-" ++ toString count
    else
      md5hex (chunks.getLastD [])

/-! ### Effectful surface: path dispatch, OS errors, and the `main` loop -/

/-- A single-quote character, built by code point to spell Python error
messages that quote their argument. -/
def squote : String := String.singleton (Char.ofNat 39)

/-- What the operating system answers for one file path:
`ok` — stat and open/read all succeed, the file holds `content`;
`statError` — `stat`/`os.path.getsize` raises an `OSError` (e.g. a
missing file; this call sits outside the `try` blocks in the source);
`openError` — stat succeeds reporting `size` bytes but `open` (or a
read) raises an `OSError` with the given message and errno. -/
inductive FileState where
  | ok (content : List Nat)
  | statError (msg : String) (errno : Int)
  | openError (size : Nat) (msg : String) (errno : Int)
deriving DecidableEq, Repr

/-- The `filename` argument of `calc_s3_etag`: a `pathlib.PosixPath`, a
`str`, or a value of any other type. -/
inductive PathArg where
  | posixPath (f : FileState)
  | strPath (f : FileState)
  | invalidType
deriving DecidableEq, Repr

/-- Python exceptions the embedded code can raise. -/
inductive PyExn where
  | osError (msg : String) (errno : Int)
  | unboundLocalError (name : String)
  | valueError (msg : String)
deriving DecidableEq, Repr

/-- The value `calc_s3_etag` returns: the ETag string, or (after a caught
`OSError`) the integer `err.errno`. -/
inductive EtagRet where
  | str (s : String)
  | int (n : Int)
deriving DecidableEq, Repr

/-- Either a returned value or an uncaught exception. -/
inductive Outcome where
  | returned (v : EtagRet)
  | raised (e : PyExn)
deriving DecidableEq, Repr

/-- Result of one `calc_s3_etag` call: the lines it printed to stdout and
stderr, and its outcome. -/
structure CalcResult where
  stdout : List String
  stderr : List String
  outcome : Outcome
deriving DecidableEq, Repr

/-- Behaviour of `calc_s3_etag` after the path-type dispatch, given the
file's `FileState`.  A stat failure escapes uncaught (`os.path.getsize` /
`filename.stat()` sit outside the `try`); an open/read failure is caught
in either branch, prints `ERROR: <err>` to stderr and returns
`err.errno`; on success the ETag of the content is returned. -/
def calcFile (f : FileState) (threshhold chunksize : Nat) : CalcResult :=
  match f with
  | .statError msg errno => ⟨[], [], .raised (.osError msg errno)⟩
  | .ok content => ⟨[], [], .returned (.str (calc_s3_etag content threshhold chunksize))⟩
  | .openError _ msg errno => ⟨[], ["ERROR: " ++ msg], .returned (.int errno)⟩

/-- Full embedding of `calc_s3_etag` including the path-type dispatch.
For a `PosixPath`, `filesize` comes from `filename.stat().st_size`; for a
`str`, from `os.path.getsize(filename)`; both then run the same digest
code on the same file.  For any other type the source prints
`invalid filename` together with the `sys.stderr` object to stdout
(`print` takes `sys.stderr` as a second positional value, not as a
`file=` keyword), falls through with `filesize` unassigned, and raises
`UnboundLocalError` at the `filesize <= threshhold` test. -/
def calc_s3_etag_run (p : PathArg) (threshhold chunksize : Nat) : CalcResult :=
  match p with
  | .posixPath f => calcFile f threshhold chunksize
  | .strPath f => calcFile f threshhold chunksize
  | .invalidType =>
      ⟨["invalid filename <sys.stderr>"], [], .raised (.unboundLocalError "filesize")⟩

/-- The message of the `ValueError` raised by `"{: <39s}".format(etag)`
when `etag` is an `int`. -/
def fmtCodeErrMsg : String :=
  "Unknown format code " ++ squote ++ "s" ++ squote ++
    " for object of type " ++ squote ++ "int" ++ squote

/-- `"{: <39s} {}".format(etag, f)`: a string is left-justified to width
39 with spaces; an `int` (the errno returned after a caught `OSError`)
makes the format call raise `ValueError`. -/
def formatEtagLine (v : EtagRet) (fname : String) : Except PyExn String :=
  match v with
  | .str s => .ok (s ++ String.mk (List.replicate (39 - s.length) ' ') ++ " " ++ fname)
  | .int _ => .error (.valueError fmtCodeErrMsg)

/-- Result of the `main` file loop: all stdout lines, all stderr lines,
and the uncaught exception that aborted the loop, if any. -/
structure MainResult where
  stdout : List String
  stderr : List String
  crashed : Option PyExn
deriving DecidableEq, Repr

/-- The per-file loop of `main`: for each path (always passed as a `str`
by argparse), compute the ETag and print the formatted line; an uncaught
exception anywhere aborts the whole loop. -/
def mainLoop (threshhold chunksize : Nat) :
    List (String × FileState) → MainResult
  | [] => ⟨[], [], none⟩
  | (fname, fs) :: rest =>
      let r := calc_s3_etag_run (.strPath fs) threshhold chunksize
      match r.outcome with
      | .raised e => ⟨r.stdout, r.stderr, some e⟩
      | .returned v =>
          match formatEtagLine v fname with
          | .error e => ⟨r.stdout, r.stderr, some e⟩
          | .ok line =>
              let rest' := mainLoop threshhold chunksize rest
              ⟨r.stdout ++ [line] ++ rest'.stdout, r.stderr ++ rest'.stderr,
                rest'.crashed⟩

/-! ### `parse_chunksize` -/

/-- The suffix strings the pattern `(\d+)([KMGT]B)?` can capture: no
suffix, or one of `KB`, `MB`, `GB`, `TB` (case-sensitive). -/
def sizeSuffixes : List (List Char) :=
  [[], ['K', 'B'], ['M', 'B'], ['G', 'B'], ['T', 'B']]

/-- The multiplier table of `parse_chunksize` (an absent suffix maps
to 1). -/
def multOf (suf : List Char) : Nat :=
  if suf = ['K', 'B'] then 1024
  else if suf = ['M', 'B'] then 1048576
  else if suf = ['G', 'B'] then 1073741824
  else if suf = ['T', 'B'] then 1099511627776
  else 1

/-- `int` on a decimal digit string. -/
def natOfDigits (ds : List Char) : Nat :=
  ds.foldl (fun acc c => acc * 10 + (c.toNat - 48)) 0

/-- Embedding of `parse_chunksize`: `re.fullmatch(r"(\d+)([KMGT]B)?", s)`
succeeds exactly when a non-empty leading run of decimal digits is
followed by nothing or by one of the four suffixes (since the suffixes
start with non-digits, the greedy `\d+` group is the maximal digit
prefix); on success the digit value times the suffix multiplier is
returned, otherwise an `argparse.ArgumentTypeError` carrying
`invalid size value: <input in single quotes>` is raised, embedded as
`Except.error`. -/
def parse_chunksize (s : String) : Except String Nat :=
  let ds := s.data.takeWhile Char.isDigit
  let rest := s.data.dropWhile Char.isDigit
  if ds ≠ [] ∧ rest ∈ sizeSuffixes then
    .ok (natOfDigits ds * multOf rest)
  else
    .error ("invalid size value: " ++ squote ++ s ++ squote)

/-! ### Lemmas about the chunked read loop -/

theorem readChunksAux_stable (cs : Nat) :
    ∀ f1 f2 (l : List Nat), l.length ≤ f1 → l.length ≤ f2 →
      readChunksAux cs f1 l = readChunksAux cs f2 l := by
  intro f1
  induction f1 with
  | zero =>
    intro f2 l h1 _
    have hl : l = [] := List.eq_nil_of_length_eq_zero (Nat.le_zero.mp h1)
    subst hl
    cases f2 <;> rfl
  | succ f ih =>
    intro f2 l h1 h2
    cases l with
    | nil => cases f2 <;> rfl
    | cons a t =>
      cases f2 with
      | zero => simp at h2
      | succ f2p =>
        simp only [readChunksAux]
        by_cases hcs : cs = 0
        · simp [hcs]
        · simp only [if_neg hcs]
          congr 1
          apply ih
          · rw [List.length_drop]
            simp only [List.length_cons] at h1 ⊢
            omega
          · rw [List.length_drop]
            simp only [List.length_cons] at h2 ⊢
            omega

theorem readChunks_nil (cs : Nat) : readChunks cs [] = [] := rfl

theorem readChunks_zero (l : List Nat) : readChunks 0 l = [] := by
  cases l with
  | nil => rfl
  | cons a t => simp [readChunks, readChunksAux]

theorem readChunks_cons (cs : Nat) (hcs : cs ≠ 0) (a : Nat) (t : List Nat) :
    readChunks cs (a :: t) =
      (a :: t).take cs :: readChunks cs ((a :: t).drop cs) := by
  unfold readChunks
  simp only [List.length_cons, readChunksAux, if_neg hcs]
  congr 1
  apply readChunksAux_stable
  · rw [List.length_drop]
    simp only [List.length_cons]
    omega
  · exact le_rfl

theorem readChunks_length (cs : Nat) (hcs : 1 ≤ cs) (l : List Nat) :
    (readChunks cs l).length = (l.length + cs - 1) / cs := by
  have key : ∀ m, 1 ≤ m →
      (m - cs + cs - 1) / cs + 1 = (m + cs - 1) / cs := by
    intro m hm
    have h1 : m + cs - 1 = (m - 1) + cs := by omega
    rw [h1, Nat.add_div_right _ (by omega : 0 < cs)]
    by_cases hcm : cs ≤ m
    · have h2 : m - cs + cs - 1 = m - 1 := by omega
      rw [h2]
    · have h2 : m - cs + cs - 1 = cs - 1 := by omega
      rw [h2, Nat.div_eq_of_lt (by omega), Nat.div_eq_of_lt (by omega)]
  suffices H : ∀ n (l : List Nat), l.length ≤ n →
      (readChunks cs l).length = (l.length + cs - 1) / cs from
    H l.length l le_rfl
  intro n
  induction n with
  | zero =>
    intro l h
    have hl : l = [] := List.eq_nil_of_length_eq_zero (Nat.le_zero.mp h)
    subst hl
    simp only [readChunks_nil, List.length_nil]
    exact (Nat.div_eq_of_lt (by omega)).symm
  | succ n ih =>
    intro l h
    cases l with
    | nil =>
      simp only [readChunks_nil, List.length_nil]
      exact (Nat.div_eq_of_lt (by omega)).symm
    | cons a t =>
      rw [readChunks_cons cs (by omega) a t]
      simp only [List.length_cons]
      rw [ih ((a :: t).drop cs)
        (by rw [List.length_drop]; simp only [List.length_cons] at h ⊢; omega)]
      rw [List.length_drop]
      simp only [List.length_cons]
      exact key (t.length + 1) (by omega)

/-! ### Lemmas about takeWhile/dropWhile splits (for `parse_chunksize`) -/

theorem takeWhile_dropWhile_split (p : Char → Bool) :
    ∀ (ds suf : List Char), (∀ c ∈ ds, p c = true) →
      (∀ a t, suf = a :: t → p a = false) →
      (ds ++ suf).takeWhile p = ds ∧ (ds ++ suf).dropWhile p = suf := by
  intro ds
  induction ds with
  | nil =>
    intro suf _ hsuf
    cases suf with
    | nil => simp
    | cons a t =>
      have ha := hsuf a t rfl
      simp [List.takeWhile_cons, List.dropWhile_cons, ha]
  | cons d ds ih =>
    intro suf hds hsuf
    have hd : p d = true := hds d (by simp)
    have h := ih suf (fun c hc => hds c (by simp [hc])) hsuf
    simp [List.takeWhile_cons, List.dropWhile_cons, hd, h.1, h.2]

theorem suffix_head_not_digit (suf : List Char) (hsuf : suf ∈ sizeSuffixes) :
    ∀ a t, suf = a :: t → a.isDigit = false := by
  intro a t hst
  subst hst
  simp only [sizeSuffixes, List.mem_cons, List.not_mem_nil, or_false] at hsuf
  rcases hsuf with h | h | h | h | h
  · exact (List.cons_ne_nil a t h).elim
  · injection h with h1 _; subst h1; decide
  · injection h with h1 _; subst h1; decide
  · injection h with h1 _; subst h1; decide
  · injection h with h1 _; subst h1; decide

theorem parse_chunksize_ok_of_split (s : String) (ds suf : List Char)
    (heq : s.data = ds ++ suf) (hne : ds ≠ [])
    (hdig : ∀ c ∈ ds, c.isDigit = true) (hsuf : suf ∈ sizeSuffixes) :
    parse_chunksize s = .ok (natOfDigits ds * multOf suf) := by
  have h := takeWhile_dropWhile_split Char.isDigit ds suf hdig
    (suffix_head_not_digit suf hsuf)
  simp only [parse_chunksize, heq, h.1, h.2]
  rw [if_pos ⟨hne, hsuf⟩]

theorem parse_chunksize_ok_iff (s : String) :
    (∃ n, parse_chunksize s = .ok n) ↔
      ∃ ds suf, s.data = ds ++ suf ∧ ds ≠ [] ∧
        (∀ c ∈ ds, c.isDigit = true) ∧ suf ∈ sizeSuffixes := by
  constructor
  · rintro ⟨n, hn⟩
    by_cases hc : s.data.takeWhile Char.isDigit ≠ [] ∧
        s.data.dropWhile Char.isDigit ∈ sizeSuffixes
    · exact ⟨_, _, (List.takeWhile_append_dropWhile Char.isDigit s.data).symm, hc.1,
        fun c hcm => List.mem_takeWhile_imp hcm, hc.2⟩
    · simp only [parse_chunksize, if_neg hc] at hn
      cases hn
  · rintro ⟨ds, suf, heq, hne, hdig, hsuf⟩
    exact ⟨_, parse_chunksize_ok_of_split s ds suf heq hne hdig hsuf⟩

theorem parse_chunksize_error_msg (s : String) (e : String)
    (he : parse_chunksize s = .error e) :
    e = "invalid size value: " ++ squote ++ s ++ squote := by
  by_cases hc : s.data.takeWhile Char.isDigit ≠ [] ∧
      s.data.dropWhile Char.isDigit ∈ sizeSuffixes
  · simp only [parse_chunksize, if_pos hc] at he
    cases he
  · simp only [parse_chunksize, if_neg hc, Except.error.injEq] at he
    exact he.symm

/-! ### Lemmas about the digest output shape -/

theorem md5_length (msg : List Nat) : (md5 msg).length = 16 := by
  unfold md5
  set st := (readChunks 64 (md5Pad msg)).foldl md5Block
    (0x67452301, 0xefcdab89, 0x98badcfe, 0x10325476) with hst
  obtain ⟨a, b, c, d⟩ := st
  simp [wordLE]

theorem hexOfBytes_cons (b : Nat) (t : List Nat) :
    hexOfBytes (b :: t) = byteHex b ++ hexOfBytes t := rfl

theorem hexOfBytes_length (bs : List Nat) :
    (hexOfBytes bs).length = 2 * bs.length := by
  induction bs with
  | nil => rfl
  | cons b t ih =>
    rw [hexOfBytes_cons]
    simp only [List.length_append, List.length_cons, ih, byteHex,
      List.length_nil]
    omega

theorem hexChar_mem (n : Nat) : hexChar n ∈ hexDigits := by
  have h : n % 16 < 16 := Nat.mod_lt _ (by omega)
  have hall : ∀ m, m < 16 → hexDigits.getD m '0' ∈ hexDigits := by decide
  exact hall (n % 16) h

theorem byteHex_mem (b : Nat) : ∀ c ∈ byteHex b, c ∈ hexDigits := by
  intro c hc
  simp only [byteHex, List.mem_cons, List.not_mem_nil, or_false] at hc
  rcases hc with h | h <;> exact h ▸ hexChar_mem _

theorem hexOfBytes_mem (bs : List Nat) :
    ∀ c ∈ hexOfBytes bs, c ∈ hexDigits := by
  induction bs with
  | nil => simp [hexOfBytes]
  | cons b t ih =>
    intro c hc
    rw [hexOfBytes_cons] at hc
    rcases List.mem_append.mp hc with h | h
    · exact byteHex_mem b c h
    · exact ih c h

theorem md5hex_length (msg : List Nat) : (md5hex msg).length = 32 := by
  show (hexOfBytes (md5 msg)).length = 32
  rw [hexOfBytes_length, md5_length]

theorem md5hex_chars (msg : List Nat) :
    ∀ c ∈ (md5hex msg).data, c ∈ hexDigits := by
  intro c hc
  exact hexOfBytes_mem (md5 msg) c hc

theorem md5hex_nil : md5hex [] = "d41d8cd98f00b204e9800998ecf8427e" := by
  decide

theorem readChunks_all (cs : Nat) (l : List Nat) (hne : l ≠ [])
    (hle : l.length ≤ cs) : readChunks cs l = [l] := by
  cases l with
  | nil => exact absurd rfl hne
  | cons a t =>
    have hcs : cs ≠ 0 := by
      simp only [List.length_cons] at hle
      omega
    rw [readChunks_cons cs hcs a t]
    rw [List.take_of_length_le hle, List.drop_eq_nil_of_le hle]
    rfl

/-! ### Claims -/

/-- C1: for a file with `filesize > threshhold` whose partition into
`chunksize`-byte chunks has at least 2 chunks, `calc_s3_etag` returns
`<hex>-<count>` where `hex` is the MD5 hex digest of the concatenation of
the raw 16-byte MD5 digests of the chunks in file order (the accumulator
is fed the part digests, not the part contents), and `count` is
`ceil(filesize / chunksize)`. -/
theorem c1_multipart_etag (content : List Nat) (t cs : Nat)
    (hcs : 1 ≤ cs) (ht : t < content.length)
    (hcount : 2 ≤ (content.length + cs - 1) / cs) :
    calc_s3_etag content t cs =
      md5hex ((readChunks cs content).map md5).flatten ++ "-" ++
        toString ((content.length + cs - 1) / cs) := by
  simp only [calc_s3_etag]
  rw [if_neg (by omega), readChunks_length cs hcs content,
    if_pos (by omega : (content.length + cs - 1) / cs > 1)]

/-- Witness for C1 at a 3-byte file, threshold 1, chunk size 2
(so 2 chunks). -/
theorem c1_multipart_etag_witness :
    calc_s3_etag [0, 1, 2] 1 2 =
      md5hex ((readChunks 2 [0, 1, 2]).map md5).flatten ++ "-" ++
        toString ((([0, 1, 2] : List Nat).length + 2 - 1) / 2) :=
  c1_multipart_etag [0, 1, 2] 1 2 (by decide) (by decide) (by decide)

/-- C2: for a file with `filesize <= threshhold` (boundary inclusive),
`calc_s3_etag` returns the plain MD5 hex digest of the full content:
32 lowercase hexadecimal characters, no part-count suffix. -/
theorem c2_singlepart_etag (content : List Nat) (t cs : Nat)
    (h : content.length ≤ t) :
    calc_s3_etag content t cs = md5hex content ∧
      (md5hex content).length = 32 ∧
      ∀ c ∈ (md5hex content).data, c ∈ hexDigits := by
  refine ⟨?_, md5hex_length content, md5hex_chars content⟩
  simp only [calc_s3_etag]
  rw [if_pos h]

/-- Witness for C2 at a 1-byte file of exactly threshold size
(boundary inclusive). -/
theorem c2_singlepart_etag_witness :
    calc_s3_etag [42] 1 8388608 = md5hex [42] ∧
      (md5hex [42]).length = 32 ∧
      ∀ c ∈ (md5hex [42]).data, c ∈ hexDigits :=
  c2_singlepart_etag [42] 1 8388608 (by decide)

/-- C3: for a file with `filesize > threshhold` but `filesize <=
chunksize` (exactly one chunk), `calc_s3_etag` returns the single part
digest, which is the plain MD5 hex of the whole content (32 characters,
so no `-1` suffix and the whole-digest accumulator is unused). -/
theorem c3_single_chunk_etag (content : List Nat) (t cs : Nat)
    (ht : t < content.length) (hle : content.length ≤ cs) :
    calc_s3_etag content t cs = md5hex content ∧
      (md5hex content).length = 32 := by
  refine ⟨?_, md5hex_length content⟩
  have hne : content ≠ [] := by
    cases content
    · simp at ht
    · simp
  simp only [calc_s3_etag]
  rw [if_neg (by omega), readChunks_all cs content hne hle]
  simp [List.getLastD]

/-- Witness for C3 at a 2-byte file, threshold 1, chunk size 5. -/
theorem c3_single_chunk_etag_witness :
    calc_s3_etag [9, 9] 1 5 = md5hex [9, 9] ∧
      (md5hex [9, 9]).length = 32 :=
  c3_single_chunk_etag [9, 9] 1 5 (by decide) (by decide)

/-- C4: `parse_chunksize` succeeds exactly on digit strings optionally
followed by one of the case-sensitive suffixes `KB`/`MB`/`GB`/`TB`,
returning digits times the multiplier; the quoted examples hold, and any
failure carries an error message embedding the offending input text. -/
theorem c4_parse_chunksize (s : String) :
    (parse_chunksize "8388608" = .ok 8388608 ∧
     parse_chunksize "8MB" = .ok 8388608 ∧
     parse_chunksize "1KB" = .ok 1024 ∧
     parse_chunksize "2GB" = .ok 2147483648) ∧
    (parse_chunksize "1.5MB" =
        .error ("invalid size value: " ++ squote ++ "1.5MB" ++ squote) ∧
     parse_chunksize "-1MB" =
        .error ("invalid size value: " ++ squote ++ "-1MB" ++ squote) ∧
     parse_chunksize "8XB" =
        .error ("invalid size value: " ++ squote ++ "8XB" ++ squote) ∧
     parse_chunksize "" =
        .error ("invalid size value: " ++ squote ++ "" ++ squote)) ∧
    ((∃ n, parse_chunksize s = .ok n) ↔
      ∃ ds suf, s.data = ds ++ suf ∧ ds ≠ [] ∧
        (∀ c ∈ ds, c.isDigit = true) ∧ suf ∈ sizeSuffixes) ∧
    (∀ ds suf, s.data = ds ++ suf → ds ≠ [] →
      (∀ c ∈ ds, c.isDigit = true) → suf ∈ sizeSuffixes →
      parse_chunksize s = .ok (natOfDigits ds * multOf suf)) ∧
    (∀ e, parse_chunksize s = .error e →
      e = "invalid size value: " ++ squote ++ s ++ squote) := by
  refine ⟨⟨?_, ?_, ?_, ?_⟩, ⟨?_, ?_, ?_, ?_⟩, parse_chunksize_ok_iff s,
    fun ds suf h1 h2 h3 h4 => parse_chunksize_ok_of_split s ds suf h1 h2 h3 h4,
    fun e he => parse_chunksize_error_msg s e he⟩ <;> rfl

/-- Witness for C4 at the input `8MB`. -/
theorem c4_parse_chunksize_witness :
    parse_chunksize "8MB" = .ok 8388608 :=
  (c4_parse_chunksize "8MB").1.2.1

/-- C5 (code bug): the intended behaviour is that an open/read `OSError`
prints `ERROR: <err>` to stderr, surfaces the errno in place of the
digest on that file's stdout line, and the batch continues.  The code
does print the stderr line and return `err.errno`, but `main` then
formats the returned `int` with the string format code `s`, which raises
an uncaught `ValueError`: no stdout line is printed for the failing file
and the remaining files of the batch are never processed.  Evaluated here
on a batch of a permission-denied file followed by a readable file. -/
theorem c5_batch_abort :
    mainLoop 8388608 8388608
      [("a.txt", .openError 100 "[Errno 13] Permission denied: a.txt" 13),
       ("b.txt", .ok [])] =
      ⟨[], ["ERROR: [Errno 13] Permission denied: a.txt"],
        some (.valueError fmtCodeErrMsg)⟩ := rfl

/-- C6 (code bug): for a path argument that is neither a `str` nor a
`PosixPath`, `calc_s3_etag` prints `invalid filename` (to stdout, since
`sys.stderr` is passed to `print` as a second positional value), then
falls through with `filesize` unassigned and raises `UnboundLocalError`
— it does raise, and no distinct `UnsupportedInputType` condition is
reported. -/
theorem c6_invalid_type_raises :
    calc_s3_etag_run .invalidType 8388608 8388608 =
      ⟨["invalid filename <sys.stderr>"], [],
        .raised (.unboundLocalError "filesize")⟩ := rfl

/-- C7: `calc_s3_etag` is deterministic — two runs on the same content,
threshold and chunk size produce the same ETag string. -/
theorem c7_deterministic (content₁ content₂ : List Nat)
    (t₁ t₂ cs₁ cs₂ : Nat) (hc : content₁ = content₂) (ht : t₁ = t₂)
    (hs : cs₁ = cs₂) :
    calc_s3_etag content₁ t₁ cs₁ = calc_s3_etag content₂ t₂ cs₂ := by
  subst hc; subst ht; subst hs; rfl

/-- Witness for C7 at a concrete repeated invocation. -/
theorem c7_deterministic_witness :
    calc_s3_etag [1, 2] 0 1 = calc_s3_etag [1, 2] 0 1 :=
  c7_deterministic [1, 2] [1, 2] 0 0 1 1 rfl rfl rfl

/-- C8: with `chunksize = 0` and `filesize > threshhold`, the first read
returns an empty buffer, the loop exits with chunk count 0, and
`calc_s3_etag` returns the MD5 hex digest of empty input,
`d41d8cd98f00b204e9800998ecf8427e`, with no suffix, regardless of the
file's content. -/
theorem c8_zero_chunksize (content : List Nat) (t : Nat)
    (h : t < content.length) :
    calc_s3_etag content t 0 = "d41d8cd98f00b204e9800998ecf8427e" ∧
      readChunks 0 content = [] := by
  refine ⟨?_, readChunks_zero content⟩
  simp only [calc_s3_etag]
  rw [if_neg (by omega), readChunks_zero content]
  simpa [List.getLastD] using md5hex_nil

/-- Witness for C8 at a 1-byte file, threshold 0, chunk size 0. -/
theorem c8_zero_chunksize_witness :
    calc_s3_etag [7] 0 0 = "d41d8cd98f00b204e9800998ecf8427e" ∧
      readChunks 0 [7] = [] :=
  c8_zero_chunksize [7] 0 (by decide)

/-- C9: the multipart read loop terminates for every finite content and
non-negative chunk size: `content.length` iterations of fuel always
suffice (any larger fuel gives the same chunk sequence), an empty read
exits the loop at once, and a zero chunk size exits on the very first
read. -/
theorem c9_loop_terminates (cs fuel : Nat) (l : List Nat)
    (h : l.length ≤ fuel) :
    readChunksAux cs fuel l = readChunks cs l ∧
      readChunks cs [] = ([] : List (List Nat)) ∧
      (cs = 0 → readChunks cs l = []) := by
  refine ⟨readChunksAux_stable cs fuel l.length l h le_rfl, rfl, ?_⟩
  intro hcs
  subst hcs
  exact readChunks_zero l

/-- Witness for C9 at chunk size 2 and fuel 10 on a 3-byte content. -/
theorem c9_loop_terminates_witness :
    readChunksAux 2 10 [5, 6, 7] = readChunks 2 [5, 6, 7] ∧
      readChunks 2 [] = ([] : List (List Nat)) ∧
      (2 = 0 → readChunks 2 [5, 6, 7] = []) :=
  c9_loop_terminates 2 10 [5, 6, 7] (by decide)

/-- C10: for an accessible file, `calc_s3_etag` produces the same result
whether the path argument is a `pathlib.PosixPath` or a plain `str`: the
two accepted forms differ only in how `filesize` is obtained, and the
digest computation afterwards is identical. -/
theorem c10_path_type_equiv (content : List Nat) (t cs : Nat) :
    calc_s3_etag_run (.posixPath (.ok content)) t cs =
      calc_s3_etag_run (.strPath (.ok content)) t cs := rfl

/-- Witness for C10 at a concrete 2-byte file. -/
theorem c10_path_type_equiv_witness :
    calc_s3_etag_run (.posixPath (.ok [3, 4])) 1 1 =
      calc_s3_etag_run (.strPath (.ok [3, 4])) 1 1 :=
  c10_path_type_equiv [3, 4] 1 1
